import Mathlib

/-!
# Verification of the Flex backend authentication / session subsystem

Shallow embedding of `src/main.py` (FastAPI backend for the game "Flex"):
password hashing (`hash_password` / `verify_password`, SHA-256 over a
peppered plaintext), bearer-token session resolution (`get_current_user`),
registration / login handlers, and the leaderboard query (`top_scores`).

The document store (`database.py`, a thin MongoDB wrapper exposing
`create_document(collection, doc) -> id` and
`get_documents(collection, filter, limit) -> list[doc]`) is not part of the
sources; it is modelled from the spec's description of the collaborator
(schema-flexible collections addressed by name, equality filters, optional
limit, insertion order), with MongoDB's filter semantics.

Python-level primitives used by the handlers (`str.replace`, `str.strip`,
truthiness, `int(...)`, list slicing, stable `sorted(..., reverse=True)`)
are embedded explicitly so that every theorem is about the source's actual
behaviour.
-/

namespace Flex

/-- A BSON-like value stored in a document field.  `oid s` is a native
MongoDB ObjectId whose string form (`str(ObjectId(...))` in Python) is `s`;
it is a distinct BSON type from the string `str s`, so the two never
compare equal under Mongo equality. -/
inductive Value where
  | str (s : String)
  | int (n : Int)
  | bool (b : Bool)
  | null
  | oid (s : String)
deriving DecidableEq

/-- A stored document: an association list of field name / value pairs
(Python dicts have unique keys; lookups take the first binding). -/
abbrev Doc := List (String × Value)

/-- Field lookup: `d.get k` = Python `d.get(k)` (None when absent). -/
def Doc.get (d : Doc) (k : String) : Option Value :=
  match d with
  | [] => none
  | (k', v) :: rest => if k' = k then some v else Doc.get rest k

/-- Field removal: `d.eraseKey k` = Python `d.pop(k, None)`'s effect on the dict: the
binding for `k` is removed (all bindings, matching dict-key uniqueness). -/
def Doc.eraseKey (d : Doc) (k : String) : Doc :=
  match d with
  | [] => []
  | (k', v) :: rest => if k' = k then Doc.eraseKey rest k else (k', v) :: Doc.eraseKey rest k

/-- The document store: one insertion-ordered list of documents per
collection used by the backend. -/
structure Store where
  flexuser : List Doc
  session : List Doc
  score : List Doc
deriving DecidableEq

/-- A field condition in a query filter as written by `main.py`: either a
direct value (`{"k": v}`) or an explicit operator form (`{"k": {"$eq": v}}`). -/
inductive FVal where
  | dir (v : Value)
  | opEq (v : Value)
deriving DecidableEq

/-- The value carried by a filter condition. -/
def FVal.val : FVal → Value
  | .dir v => v
  | .opEq v => v

/-- Modelled from the spec: `database.py` (not under `src/`) forwards
filters to MongoDB.  Mongo equality: a direct value `{k: v}` and the
operator form `{k: {"$eq": v}}` are the same equality test; values of
different BSON types (for example an ObjectId and its hex string) are not
equal; a `null` condition also matches a document missing the field. -/
def condMatch (d : Doc) (k : String) (v : Value) : Bool :=
  match d.get k with
  | some w => w = v
  | none => v = .null

/-- A document matches a filter when it matches every condition. -/
def matchesFilter (d : Doc) (f : List (String × FVal)) : Bool :=
  f.all fun kv => condMatch d kv.1 kv.2.val

/-- Modelled from the spec: `get_documents(collection, filter, limit)` of
`database.py` returns the first `limit` documents of the collection, in
insertion order, that match the filter. -/
def getDocs (coll : List Doc) (f : List (String × FVal)) (limit : Nat) : List Doc :=
  (coll.filter (matchesFilter · f)).take limit

/-- Modelled from the spec: `get_documents(collection, filter)` with no
limit returns every matching document in insertion order. -/
def getDocsAll (coll : List Doc) (f : List (String × FVal)) : List Doc :=
  coll.filter (matchesFilter · f)

/-! ## Python string / value primitives -/

/-- Does the second list start with the first? (helper for `str.replace`). -/
def startsWithL : List Char → List Char → Bool
  | [], _ => true
  | _ :: _, [] => false
  | p :: ps, c :: cs => p == c && startsWithL ps cs

/-- Python `str.replace` on char lists, fuel-structured so the kernel can
evaluate it: replace every non-overlapping occurrence of `pat` left to
right.  Every step consumes at least one character (for the non-empty
patterns this backend uses), so `fuel = length` never runs out. -/
def pyReplAux (pat rep : List Char) : Nat → List Char → List Char
  | _, [] => []
  | 0, l => l
  | fuel + 1, c :: cs =>
    if !pat.isEmpty && startsWithL pat (c :: cs) then
      rep ++ pyReplAux pat rep fuel ((c :: cs).drop pat.length)
    else
      c :: pyReplAux pat rep fuel cs

/-- Python `s.replace(pat, rep)` (for a non-empty `pat`, the only case the
backend exercises). -/
def pyReplace (s pat rep : String) : String :=
  ⟨pyReplAux pat.data rep.data s.data.length s.data⟩

/-- ASCII whitespace (what Python's `str.strip()` removes on the inputs
this backend sees; Python additionally strips other Unicode whitespace,
which no theorem below exercises). -/
def isSpaceCh (c : Char) : Bool :=
  c == ' ' || (9 ≤ c.toNat && c.toNat ≤ 13)

/-- Python `s.strip()`. -/
def pyStrip (s : String) : String :=
  ⟨((s.data.dropWhile isSpaceCh).reverse.dropWhile isSpaceCh).reverse⟩

/-- The token `get_current_user` computes from a (non-empty) Authorization
header: `authorization.replace("Bearer ", "").strip()`. -/
def pyToken (a : String) : String :=
  pyStrip (pyReplace a "Bearer " "")

/-- Python truthiness of `d.get(k)`: `None` and missing are falsy, the
empty string and `0` and `False` are falsy, everything else truthy. -/
def pyTruthy : Option Value → Bool
  | none => false
  | some .null => false
  | some (.str s) => s ≠ ""
  | some (.int n) => n ≠ 0
  | some (.bool b) => b
  | some (.oid _) => true

/-- Python `str(v)` on a stored value (`str(None) = "None"`,
`str(ObjectId(h)) = h`). -/
def pyStr : Value → String
  | .str s => s
  | .int n => toString n
  | .bool b => if b then "True" else "False"
  | .null => "None"
  | .oid s => s

/-- Python `int(v)` on a stored value: identity on ints, 0/1 on bools,
`none` where CPython raises (strings and other types are not produced for
the integer fields this backend reads). -/
def pyInt : Value → Option Int
  | .int n => some n
  | .bool b => some (if b then 1 else 0)
  | _ => none

/-- Conversion `int(sess.get(k, 0))`: a missing field reads as `0`. -/
def pyIntD (v : Option Value) : Option Int :=
  match v with
  | none => some 0
  | some w => pyInt w

/-! ## `get_current_user` (the Authenticator's `resolve`) -/

/-- Outcome of `get_current_user`.  `pyError` marks a path where CPython
would raise a `TypeError`/`ValueError` (e.g. `int(...)` of a non-numeric
value), which surfaces as a 500, not as one of the auth errors. -/
inductive AuthResult where
  | missingToken
  | invalidSession
  | sessionExpired
  | userNotFound
  | ok (user : Doc)
  | pyError
deriving DecidableEq

/-- Session lookup `get_documents("session", {"token": token}, limit=1)[0]`, when present. -/
def findSession (st : Store) (token : String) : Option Doc :=
  (getDocs st.session [("token", .dir (.str token))] 1).head?

/-- The user-resolution chain of `get_current_user` (main.py lines 71-81):
(a) `{"_id": {"$eq": sess.get("user_id")}}`, (b) on no match the literal
fallback `{"_id": user_id}` — the same value, only written without the
`$eq` operator — and (c) on no match, `{"email": sess.get("email")}`
guarded by `if sess.get("email"):`. -/
def findUser (st : Store) (sess : Doc) : Option Doc :=
  let uid := (sess.get "user_id").getD .null
  match (getDocs st.flexuser [("_id", .opEq uid)] 1).head? with
  | some u => some u
  | none =>
    match (getDocs st.flexuser [("_id", .dir uid)] 1).head? with
    | some u => some u
    | none =>
      if pyTruthy (sess.get "email") then
        (getDocs st.flexuser [("email", .dir ((sess.get "email").getD .null))] 1).head?
      else
        none

/-- Resolution `get_current_user(authorization)` at time `now = int(time.time())`:
missing/empty header, token derivation, session lookup, expiry check
(`int(sess.get("expires_at", 0)) < int(time.time())`), user resolution,
and stripping of `password_hash` from the returned user. -/
def resolve (st : Store) (now : Int) (authorization : Option String) : AuthResult :=
  match authorization with
  | none => .missingToken
  | some a =>
    if a = "" then .missingToken
    else
      match findSession st (pyToken a) with
      | none => .invalidSession
      | some sess =>
        match pyIntD (sess.get "expires_at") with
        | none => .pyError
        | some e =>
          if e < now then .sessionExpired
          else
            match findUser st sess with
            | none => .userNotFound
            | some u => .ok (u.eraseKey "password_hash")

/-! ## SHA-256 (`hashlib.sha256(...).hexdigest()`)

A direct embedding of FIPS 180-4 SHA-256 over a byte list, used by
`hash_password`.  Words are `Nat`s kept reduced modulo `2^32`. -/

/-- Word modulus `2^32`. -/
def M32 : Nat := 4294967296

/-- Right rotation of a 32-bit word. -/
def rotr (n x : Nat) : Nat :=
  ((x >>> n) ||| (x <<< (32 - n))) % M32

/-- Bitwise complement within 32 bits. -/
def not32 (x : Nat) : Nat := x ^^^ 0xFFFFFFFF

/-- SHA-256 Ch function. -/
def ch (e f g : Nat) : Nat := (e &&& f) ^^^ (not32 e &&& g)

/-- SHA-256 Maj function. -/
def maj (a b c : Nat) : Nat := (a &&& b) ^^^ (a &&& c) ^^^ (b &&& c)

/-- SHA-256 big sigma 0. -/
def bigS0 (x : Nat) : Nat := rotr 2 x ^^^ rotr 13 x ^^^ rotr 22 x

/-- SHA-256 big sigma 1. -/
def bigS1 (x : Nat) : Nat := rotr 6 x ^^^ rotr 11 x ^^^ rotr 25 x

/-- SHA-256 small sigma 0. -/
def smallS0 (x : Nat) : Nat := rotr 7 x ^^^ rotr 18 x ^^^ ((x >>> 3) % M32)

/-- SHA-256 small sigma 1. -/
def smallS1 (x : Nat) : Nat := rotr 17 x ^^^ rotr 19 x ^^^ ((x >>> 10) % M32)

/-- The 64 SHA-256 round constants. -/
def K256 : List Nat :=
  [0x428A2F98, 0x71374491, 0xB5C0FBCF, 0xE9B5DBA5, 0x3956C25B, 0x59F111F1,
   0x923F82A4, 0xAB1C5ED5, 0xD807AA98, 0x12835B01, 0x243185BE, 0x550C7DC3,
   0x72BE5D74, 0x80DEB1FE, 0x9BDC06A7, 0xC19BF174, 0xE49B69C1, 0xEFBE4786,
   0x0FC19DC6, 0x240CA1CC, 0x2DE92C6F, 0x4A7484AA, 0x5CB0A9DC, 0x76F988DA,
   0x983E5152, 0xA831C66D, 0xB00327C8, 0xBF597FC7, 0xC6E00BF3, 0xD5A79147,
   0x06CA6351, 0x14292967, 0x27B70A85, 0x2E1B2138, 0x4D2C6DFC, 0x53380D13,
   0x650A7354, 0x766A0ABB, 0x81C2C92E, 0x92722C85, 0xA2BFE8A1, 0xA81A664B,
   0xC24B8B70, 0xC76C51A3, 0xD192E819, 0xD6990624, 0xF40E3585, 0x106AA070,
   0x19A4C116, 0x1E376C08, 0x2748774C, 0x34B0BCB5, 0x391C0CB3, 0x4ED8AA4A,
   0x5B9CCA4F, 0x682E6FF3, 0x748F82EE, 0x78A5636F, 0x84C87814, 0x8CC70208,
   0x90BEFFFA, 0xA4506CEB, 0xBEF9A3F7, 0xC67178F2]

/-- The initial SHA-256 hash state. -/
def H0 : List Nat :=
  [0x6A09E667, 0xBB67AE85, 0x3C6EF372, 0xA54FF53A,
   0x510E527F, 0x9B05688C, 0x1F83D9AB, 0x5BE0CD19]

/-- The `k` bytes of `n`, big-endian (low 8·k bits of `n`). -/
def bytesBE : Nat → Nat → List Nat
  | 0, _ => []
  | k + 1, n => bytesBE k (n / 256) ++ [n % 256]

/-- SHA-256 message padding: append `0x80`, zero bytes to 56 mod 64, and
the 64-bit big-endian bit length. -/
def sha256pad (msg : List Nat) : List Nat :=
  let r := (msg.length + 1) % 64
  let zeros := (120 - r) % 64
  msg ++ [0x80] ++ List.replicate zeros 0 ++ bytesBE 8 (8 * msg.length)

/-- Big-endian 32-bit words of a byte list (length a multiple of 4). -/
def toWords : List Nat → List Nat
  | b1 :: b2 :: b3 :: b4 :: rest =>
    (b1 * 0x1000000 + b2 * 0x10000 + b3 * 0x100 + b4) :: toWords rest
  | _ => []

/-- Byte chunks of size 64, fuel-structured so the kernel can evaluate it; every
step consumes at least one byte, so `fuel = length` never runs out. -/
def chunksAux : Nat → List Nat → List (List Nat)
  | _, [] => []
  | 0, _ => []
  | fuel + 1, c :: cs => ((c :: cs).take 64) :: chunksAux fuel ((c :: cs).drop 64)

/-- The 64-byte chunks of the padded message. -/
def chunks64 (l : List Nat) : List (List Nat) :=
  chunksAux l.length l

/-- One step of the message-schedule extension; `ws` holds the schedule
most-recent-first. -/
def schedStep (ws : List Nat) : List Nat :=
  ((smallS1 (ws.getD 1 0) + ws.getD 6 0 + smallS0 (ws.getD 14 0) + ws.getD 15 0) % M32) :: ws

/-- Iterate the schedule extension `k` times. -/
def schedExtend : Nat → List Nat → List Nat
  | 0, ws => ws
  | k + 1, ws => schedExtend k (schedStep ws)

/-- The 64-entry message schedule W of a 16-word block. -/
def schedule (block : List Nat) : List Nat :=
  (schedExtend 48 block.reverse).reverse

/-- One compression round; the state is `[a,b,c,d,e,f,g,h]`, `kw` the pair
of round constant and schedule word. -/
def round256 (st : List Nat) (kw : Nat × Nat) : List Nat :=
  match st with
  | [a, b, c, d, e, f, g, h] =>
    let t1 := (h + bigS1 e + ch e f g + kw.1 + kw.2) % M32
    let t2 := (bigS0 a + maj a b c) % M32
    [(t1 + t2) % M32, a, b, c, (d + t1) % M32, e, f, g]
  | other => other

/-- Compress one 16-word block into the running hash state. -/
def compress (h : List Nat) (block : List Nat) : List Nat :=
  let w := schedule block
  let st := (K256.zip w).foldl round256 h
  (h.zip st).map fun p => (p.1 + p.2) % M32

/-- The eight 32-bit digest words of a byte message. -/
def sha256words (msg : List Nat) : List Nat :=
  ((chunks64 (sha256pad msg)).map toWords).foldl compress H0

/-- Pack digest words into one natural number (big-endian). -/
def packWords (ws : List Nat) : Nat :=
  ws.foldl (fun acc w => acc * M32 + w % M32) 0

/-- The digest of a byte message as a single natural number. -/
def sha256nat (msg : List Nat) : Nat := packWords (sha256words msg)

/-- A hexadecimal digit character. -/
def hexChar (n : Nat) : Char :=
  if n < 10 then Char.ofNat (48 + n) else Char.ofNat (87 + n)

/-- The `k` low hex digits of `n`, most significant first. -/
def hexDigits : Nat → Nat → List Char
  | _, 0 => []
  | n, k + 1 => hexDigits (n / 16) k ++ [hexChar (n % 16)]

/-- Digest `hashlib.sha256(msg).hexdigest()`: 64 hex characters. -/
def sha256hex (msg : List Nat) : String :=
  ⟨hexDigits (sha256nat msg) 64⟩

/-- UTF-8 encoding of one unicode scalar value (Python `str.encode("utf-8")`
per character). -/
def utf8Char (c : Char) : List Nat :=
  let n := c.toNat
  if n < 0x80 then [n]
  else if n < 0x800 then [0xC0 ||| n / 64, 0x80 ||| n % 64]
  else if n < 0x10000 then
    [0xE0 ||| n / 4096, 0x80 ||| n / 64 % 64, 0x80 ||| n % 64]
  else
    [0xF0 ||| n / 262144, 0x80 ||| n / 4096 % 64, 0x80 ||| n / 64 % 64, 0x80 ||| n % 64]

/-- Python `s.encode("utf-8")` as a byte list. -/
def utf8Bytes (s : String) : List Nat :=
  s.data.flatMap utf8Char

/-! ## Password hashing (`main.py` lines 25-34) -/

/-- Pepper `PASSWORD_SALT = os.getenv("PASSWORD_SALT", "flex-salt")`: the
process-wide pepper, modelled at its default value (no theorem below
depends on the concrete value). -/
def PASSWORD_SALT : String := "flex-salt"

/-- Hashing `hash_password(password)`:
`hashlib.sha256((PASSWORD_SALT + password).encode("utf-8")).hexdigest()`. -/
def hash_password (password : String) : String :=
  sha256hex (utf8Bytes (PASSWORD_SALT ++ password))

/-- Verification `verify_password(password, password_hash)`: plain string equality of
the recomputed digest with the stored one. -/
def verify_password (password : String) (password_hash : String) : Bool :=
  hash_password password = password_hash

/-! ## `/auth/register` and `/auth/login` (`main.py` lines 102-159)

Randomness (`secrets.token_urlsafe(32)`) and id generation by the store
are modelled as explicit parameters `token` / `newId`; `now` stands for
`int(time.time())`. -/

/-- Outcome of `register`: `DuplicateEmail` (HTTP 400) or the response
`{"token": ..., "user": ...}` together with the store after the two
`create_document` calls. -/
inductive RegisterResult where
  | duplicateEmail
  | okR (token : String) (user : Doc) (st : Store)
deriving DecidableEq

/-- Outcome of `login`: `InvalidCredentials` (HTTP 401) or the response
together with the store after the session insert. -/
inductive LoginResult where
  | invalidCredentials
  | okL (token : String) (user : Doc) (st : Store)
deriving DecidableEq

/-- Constant `SESSION_TTL_SECONDS = 60 * 60 * 24 * 7`. -/
def SESSION_TTL_SECONDS : Int := 60 * 60 * 24 * 7

/-- Modelled from the spec: `create_document(collection, doc)` of
`database.py` appends the document, with a fresh native id under `"_id"`,
in insertion order, and returns the inserted id; the returned id is
modelled in its string form (`login`'s explicit `str(user.get("_id"))`
and the string-id fallback chain of `get_current_user` indicate ids
surface as strings once they leave the store helper).  `newId` is the
fresh ObjectId's hex form. -/
def insertDoc (coll : List Doc) (newId : String) (doc : Doc) : List Doc :=
  coll ++ [("_id", Value.oid newId) :: doc]

/-- Handler `register(payload)` (`main.py` lines 102-128): duplicate check by
email, user insert (`display_name` stripped, `high_score = 0`,
`is_active = True`), session insert, and the response with the unstripped
display name. -/
def register (st : Store) (email display_name password : String)
    (token newId sessId : String) (now : Int) : RegisterResult :=
  let existing := getDocs st.flexuser [("email", .dir (.str email))] 1
  if existing ≠ [] then .duplicateEmail
  else
    let user_doc : Doc :=
      [("email", .str email),
       ("display_name", .str (pyStrip display_name)),
       ("password_hash", .str (hash_password password)),
       ("avatar", .null),
       ("high_score", .int 0),
       ("is_active", .bool true)]
    let user_id : Value := .str newId
    let expires_at := now + SESSION_TTL_SECONDS
    let sess_doc : Doc :=
      [("user_id", user_id),
       ("token", .str token),
       ("email", .str email),
       ("expires_at", .int expires_at)]
    let st1 : Store :=
      { st with flexuser := insertDoc st.flexuser newId user_doc }
    let st2 : Store :=
      { st1 with session := insertDoc st1.session sessId sess_doc }
    .okR token
      [("_id", user_id), ("email", .str email),
       ("display_name", .str display_name), ("high_score", .int 0)]
      st2

/-- Expression `user.get("password_hash", "")` fed to `verify_password`: a non-string
stored value never equals the recomputed hex digest under Python `==`. -/
def storedHashOk (password : String) (v : Option Value) : Bool :=
  match v with
  | some (.str s) => verify_password password s
  | none => verify_password password ""
  | some _ => false

/-- Handler `login(payload)` (`main.py` lines 131-159): user lookup by email,
password check, session insert with `user_id = str(user["_id"])`, and the
hand-built response view. -/
def login (st : Store) (email password : String)
    (token sessId : String) (now : Int) : LoginResult :=
  match (getDocs st.flexuser [("email", .dir (.str email))] 1).head? with
  | none => .invalidCredentials
  | some user =>
    if storedHashOk password (user.get "password_hash") then
      let expires_at := now + SESSION_TTL_SECONDS
      let sess_doc : Doc :=
        [("user_id", .str (pyStr ((user.get "_id").getD .null))),
         ("token", .str token),
         ("email", (user.get "email").getD .null),
         ("expires_at", .int expires_at)]
      let user_resp : Doc :=
        [("_id", .str (pyStr ((user.get "_id").getD .null))),
         ("email", (user.get "email").getD .null),
         ("display_name", (user.get "display_name").getD .null),
         ("high_score", (user.get "high_score").getD (.int 0)),
         ("avatar", (user.get "avatar").getD .null)]
      .okL token user_resp { st with session := insertDoc st.session sessId sess_doc }
    else .invalidCredentials

/-! ## `/scores/top` (`main.py` lines 182-195) -/

/-- The sort key `int(d.get("value", 0))`, on the integer-or-missing
`value` fields score documents carry (CPython raises on other types; the
theorems below assume well-typed score documents). -/
def scoreKey (d : Doc) : Int :=
  match d.get "value" with
  | some (.int n) => n
  | some (.bool b) => if b then 1 else 0
  | _ => 0

/-- A score document whose `value` field `int(...)` accepts. -/
def wellTypedScore (d : Doc) : Bool :=
  match d.get "value" with
  | some (.int _) => true
  | some (.bool _) => true
  | none => true
  | some _ => false

/-- Stable descending insertion by key: the new element `x` (earlier in
the original list than everything already placed) goes before the first
element whose key is at most `key x`, hence before equal keys. -/
def insDesc {α : Type} (key : α → Int) (x : α) : List α → List α
  | [] => [x]
  | b :: l => if key b ≤ key x then x :: b :: l else b :: insDesc key x l

/-- Python's `sorted(docs, key=..., reverse=True)`: the unique stable
descending sort by key. -/
def sortDesc {α : Type} (key : α → Int) : List α → List α
  | [] => []
  | a :: l => insDesc key a (sortDesc key l)

/-- Python list slicing `l[:k]` for an `int` bound: a negative `k` counts
from the end (`max(0, len(l) + k)` elements). -/
def pySlice (l : List Doc) (k : Int) : List Doc :=
  if 0 ≤ k then l.take k.toNat else l.take (l.length - (-k).toNat)

/-- One serialized leaderboard entry:
`{"display_name": d.get("display_name", "Player"), "value": int(d.get("value", 0))}`. -/
def scoreEntry (d : Doc) : Value × Int :=
  ((d.get "display_name").getD (.str "Player"), scoreKey d)

/-- Handler `top_scores(limit)`: fetch all score documents, sort by value
descending (stable), slice to `limit`, serialize. -/
def topScores (st : Store) (limit : Int) : List (Value × Int) :=
  let docs := getDocsAll st.score []
  (pySlice (sortDesc scoreKey docs) limit).map scoreEntry

/-! ## Reference values and helper lemmas -/

set_option maxRecDepth 100000 in
/-- Sanity anchor for the SHA-256 embedding: the FIPS 180-4 test vector
for the empty message. -/
theorem sha256hex_empty :
    sha256hex [] = "e3b0c44298fc1c149afbf4c8996fb92427ae41e4649b934ca495991b7852b855" := by
  decide

/-- After `user.pop("password_hash", None)` the field is gone. -/
theorem Doc.get_eraseKey (d : Doc) (k : String) : (d.eraseKey k).get k = none := by
  induction d with
  | nil => rfl
  | cons kv rest ih =>
    obtain ⟨k', v⟩ := kv
    by_cases h : k' = k
    · simpa [Doc.eraseKey, h] using ih
    · simpa [Doc.eraseKey, Doc.get, h] using ih

/-- In the non-empty-header branch, `get_current_user` never reports
`MissingToken`. -/
theorem resolve_ne_missingToken (st : Store) (now : Int) (a : String) (ha : a ≠ "") :
    resolve st now (some a) ≠ .missingToken := by
  simp only [resolve]
  rw [if_neg ha]
  cases hs : findSession st (pyToken a) with
  | none => simp
  | some sess =>
    cases he : pyIntD (sess.get "expires_at") with
    | none => simp [he]
    | some e =>
      by_cases hlt : e < now
      · simp [he, hlt]
      · cases hu : findUser st sess <;> simp [he, hlt, hu]

/-! ## Claim C1: session-expiry boundary -/

/-- C1: for a resolve call whose bearer token matches a stored session
carrying `expires_at = e`, the session is rejected with `SessionExpired`
exactly when `now > e`; in particular it is still accepted (no
`SessionExpired`) at the instant `now = e` and whenever `now ≤ e`. -/
theorem session_expiry_boundary (st : Store) (now : Int) (a : String) (sess : Doc) (e : Int)
    (ha : a ≠ "") (hs : findSession st (pyToken a) = some sess)
    (he : sess.get "expires_at" = some (.int e)) :
    (resolve st now (some a) = .sessionExpired ↔ e < now) ∧
    (now ≤ e → resolve st now (some a) ≠ .sessionExpired) := by
  have hret : pyIntD (sess.get "expires_at") = some e := by rw [he]; rfl
  have hmain : resolve st now (some a) = .sessionExpired ↔ e < now := by
    simp only [resolve]
    rw [if_neg ha, hs]
    simp only [hret]
    by_cases hlt : e < now
    · simp [hlt]
    · cases hu : findUser st sess <;> simp [hlt, hu]
  exact ⟨hmain, fun hle hexp => absurd (hmain.mp hexp) (by omega)⟩

/-- A user document used in the concrete authentication scenarios. -/
def uA : Doc :=
  [("_id", .oid "u1"), ("email", .str "a@b"), ("display_name", .str "Al"),
   ("password_hash", .str "X"), ("high_score", .int 0), ("is_active", .bool true)]

/-- A session for `uA` with token `tok1` expiring at time 100. -/
def sA : Doc :=
  [("token", .str "tok1"), ("user_id", .oid "u1"), ("email", .str "a@b"),
   ("expires_at", .int 100)]

/-- Store holding `uA` and `sA`. -/
def stA : Store := ⟨[uA], [sA], []⟩

/-- Witness for C1 at a concrete input: at `now = 100 = expires_at` the
session is not expired (the boundary instant is accepted). -/
theorem session_expiry_boundary_witness :
    (resolve stA 100 (some "Bearer tok1") = .sessionExpired ↔ (100 : Int) < 100) ∧
    ((100 : Int) ≤ 100 → resolve stA 100 (some "Bearer tok1") ≠ .sessionExpired) :=
  session_expiry_boundary stA 100 "Bearer tok1" sA 100 (by decide) (by decide) (by decide)

/-! ## Claim C9: sessions without `expires_at` -/

/-- C9 (amended): a stored session lacking `expires_at` is read as expiring
at 0, so it is rejected with `SessionExpired` whenever `now > 0` — i.e. at
every instant after the Unix epoch, but not at `now ≤ 0`. -/
theorem missing_expiry_rejected (st : Store) (now : Int) (a : String) (sess : Doc)
    (ha : a ≠ "") (hs : findSession st (pyToken a) = some sess)
    (he : sess.get "expires_at" = none) (hnow : 0 < now) :
    resolve st now (some a) = .sessionExpired := by
  have hret : pyIntD (sess.get "expires_at") = some 0 := by rw [he]; rfl
  simp only [resolve]
  rw [if_neg ha, hs]
  simp only [hret]
  simp [hnow]

/-- A session for `uA` that lacks the `expires_at` field. -/
def sNoExp : Doc :=
  [("token", .str "t9"), ("user_id", .oid "u1"), ("email", .str "a@b")]

/-- Store holding `uA` and the expiry-less session. -/
def stNoExp : Store := ⟨[uA], [sNoExp], []⟩

/-- Counterexample to C9 as stated: at `now = 0` (the model's time domain
is the `int` returned by `int(time.time())`) the expiry check `0 < 0`
fails, so a session lacking `expires_at` authenticates successfully —
"can never successfully authenticate" is false. -/
theorem missing_expiry_counterexample :
    sNoExp.get "expires_at" = none ∧
    findSession stNoExp "t9" = some sNoExp ∧
    resolve stNoExp 0 (some "t9") = .ok (uA.eraseKey "password_hash") := by
  decide

/-- Witness for the amended C9 at a concrete input: the same store at
`now = 1` rejects the session with `SessionExpired`. -/
theorem missing_expiry_rejected_witness :
    resolve stNoExp 1 (some "t9") = .sessionExpired :=
  missing_expiry_rejected stNoExp 1 "t9" sNoExp (by decide) (by decide) (by decide)
    (by decide)

/-! ## Claim C10: the header consisting exactly of `"Bearer "` -/

/-- C10: a non-empty header that reduces to the empty token — such as the
header `"Bearer "` itself — is not rejected as `MissingToken`: the code
removes every occurrence of `"Bearer "` and strips whitespace, then looks
up the empty-string token, failing with `InvalidSession` when no stored
session carries it. -/
theorem bearer_only_header (st : Store) (now : Int) :
    resolve st now (some "Bearer ") ≠ .missingToken ∧
    pyToken "Bearer " = "" ∧
    (findSession st "" = none → resolve st now (some "Bearer ") = .invalidSession) := by
  refine ⟨resolve_ne_missingToken st now "Bearer " (by decide), rfl, fun hnone => ?_⟩
  simp only [resolve]
  rw [if_neg (by decide : ¬("Bearer " = ""))]
  rw [show pyToken "Bearer " = "" from rfl, hnone]

/-- Witness for C10 at a concrete input: in the store `stA` (which has no
empty-token session) the header `"Bearer "` yields `InvalidSession`. -/
theorem bearer_only_header_witness :
    resolve stA 0 (some "Bearer ") ≠ .missingToken ∧
    pyToken "Bearer " = "" ∧
    resolve stA 0 (some "Bearer ") = .invalidSession := by
  have h := bearer_only_header stA 0
  exact ⟨h.1, h.2.1, h.2.2 (by decide)⟩

/-! ## Claim C7: MissingToken / InvalidSession and token derivation -/

/-- Modelled from the claim's words (C7): stripping one optional
`"Bearer "` prefix from the raw header value — the token derivation the
claim asserts, to be compared with the code's `pyToken`. -/
def claimToken (a : String) : String :=
  if startsWithL "Bearer ".data a.data then ⟨a.data.drop 7⟩ else a

/-- C7 (amended): `resolve` fails with `MissingToken` exactly when the
header is absent or empty; for every non-empty header the token is the
header with every occurrence of `"Bearer "` removed and surrounding
whitespace stripped (not a single optional prefix strip), and `resolve`
fails with `InvalidSession` exactly when that token matches no stored
session. -/
theorem token_error_taxonomy (st : Store) (now : Int) (a : Option String) :
    (resolve st now a = .missingToken ↔ (a = none ∨ a = some "")) ∧
    (∀ s, a = some s → s ≠ "" →
      (resolve st now a = .invalidSession ↔ findSession st (pyToken s) = none)) := by
  constructor
  · cases a with
    | none => simp [resolve]
    | some s =>
      by_cases hs : s = ""
      · subst hs; simp [resolve]
      · simp only [Option.some.injEq]
        have := resolve_ne_missingToken st now s hs
        simp [this, hs]
  · rintro s rfl hs
    simp only [resolve]
    rw [if_neg hs]
    cases hfind : findSession st (pyToken s) with
    | none => simp
    | some sess =>
      cases he : pyIntD (sess.get "expires_at") with
      | none => simp [he]
      | some e =>
        by_cases hlt : e < now
        · simp [he, hlt]
        · cases hu : findUser st sess <;> simp [he, hlt, hu]

/-- A session whose stored token is literally `"Bearer t"`. -/
def sBearerT : Doc :=
  [("token", .str "t"), ("user_id", .oid "u1"), ("email", .str "a@b"),
   ("expires_at", .int 100)]

/-- Store holding `uA` and `sBearerT`. -/
def stBearerT : Store := ⟨[uA], [sBearerT], []⟩

/-- Counterexample to C7 as stated: for the header `"Bearer Bearer t"`,
the claim's single-prefix strip yields the token `"Bearer t"`, which
matches no stored session, so the claim predicts `InvalidSession`; the
code removes every `"Bearer "` occurrence, looks up `"t"`, and resolves
the user successfully. -/
theorem token_error_taxonomy_counterexample :
    claimToken "Bearer Bearer t" = "Bearer t" ∧
    findSession stBearerT (claimToken "Bearer Bearer t") = none ∧
    pyToken "Bearer Bearer t" = "t" ∧
    resolve stBearerT 0 (some "Bearer Bearer t") = .ok (uA.eraseKey "password_hash") := by
  decide

/-- Witness for the amended C7 at a concrete input: in `stA`, the unknown
token `"garbled"` is rejected with `InvalidSession` and the taxonomy holds. -/
theorem token_error_taxonomy_witness :
    (resolve stA 0 (some "garbled") = .missingToken ↔
      ((some "garbled" : Option String) = none ∨ some "garbled" = some "")) ∧
    (resolve stA 0 (some "garbled") = .invalidSession ↔
      findSession stA (pyToken "garbled") = none) := by
  have h := token_error_taxonomy stA 0 (some "garbled")
  exact ⟨h.1, h.2 "garbled" rfl (by decide)⟩

/-! ## Claim C4: the user-resolution chain -/

/-- Modelled from the spec (claim C4): the resolution order the spec
asserts — (a) native id equality, (b) the *stringified* form of the id,
(c) the session's denormalized email — to be compared with the code's
`findUser`, whose step (b) repeats the same native id without `str(...)`. -/
def claimFindUser (st : Store) (sess : Doc) : Option Doc :=
  let uid := (sess.get "user_id").getD .null
  match (getDocs st.flexuser [("_id", .opEq uid)] 1).head? with
  | some u => some u
  | none =>
    match (getDocs st.flexuser [("_id", .dir (.str (pyStr uid)))] 1).head? with
    | some u => some u
    | none =>
      if pyTruthy (sess.get "email") then
        (getDocs st.flexuser [("email", .dir ((sess.get "email").getD .null))] 1).head?
      else
        none

/-- The two id queries the code actually issues are the same test:
`{"_id": {"$eq": v}}` and `{"_id": v}` are one equality under Mongo
semantics, so the literal fallback never matches anything the first
query missed. -/
theorem second_id_query_redundant (d : Doc) (v : Value) :
    matchesFilter d [("_id", .dir v)] = matchesFilter d [("_id", .opEq v)] := rfl

/-- A user whose `_id` is stored as the *string* form of the session's
native id (the representation drift the fallback chain exists for),
reachable by no email fallback (the session has no email field). -/
def uDrift : Doc :=
  [("_id", .str "a1"), ("email", .str "c@d"), ("password_hash", .str "X")]

/-- A session referencing `uDrift` by native ObjectId, with no
denormalized email. -/
def sDrift : Doc :=
  [("token", .str "t"), ("user_id", .oid "a1"), ("expires_at", .int 1000)]

/-- Store exhibiting the id-representation drift. -/
def stDrift : Store := ⟨[uDrift], [sDrift], []⟩

/-- C4 is the intent (the code's own comment reads "Fallback if _id stored
as str") but the code never stringifies: at the drift store the code's
`resolve` fails with `UserNotFound`, while the spec's chain — step (b)
querying `str(user_id)` — finds the user. -/
theorem id_fallback_chain_bug :
    resolve stDrift 0 (some "t") = .userNotFound ∧
    claimFindUser stDrift sDrift = some uDrift ∧
    findSession stDrift "t" = some sDrift := by
  decide

/-! ## Claim C5: `password_hash` never leaves the system -/

/-- The user returned by a successful `get_current_user` has no
`password_hash` field (trivially holds on every failure outcome). -/
def noSecret : AuthResult → Prop
  | .ok u => u.get "password_hash" = none
  | _ => True

/-- The user view returned by a successful login has no `password_hash`
field. -/
def noSecretL : LoginResult → Prop
  | .okL _ u _ => u.get "password_hash" = none
  | _ => True

/-- The user view returned by a successful registration has no
`password_hash` field. -/
def noSecretR : RegisterResult → Prop
  | .okR _ u _ => u.get "password_hash" = none
  | _ => True

/-- C5: for every store (including stores whose user documents do carry a
`password_hash` field), the user value returned by a successful resolve
and the user views returned by login and register never contain a
`password_hash` field. -/
theorem password_hash_never_output (st : Store) (now : Int) (a : Option String)
    (email dn pw tok nid sid : String) :
    noSecret (resolve st now a) ∧
    noSecretL (login st email pw tok sid now) ∧
    noSecretR (register st email dn pw tok nid sid now) := by
  refine ⟨?_, ?_, ?_⟩
  · cases a with
    | none => simp [resolve, noSecret]
    | some s =>
      by_cases hs : s = ""
      · subst hs; simp [resolve, noSecret]
      · simp only [resolve]
        rw [if_neg hs]
        cases hfind : findSession st (pyToken s) with
        | none => simp [noSecret]
        | some sess =>
          cases he : pyIntD (sess.get "expires_at") with
          | none => simp [he, noSecret]
          | some e =>
            by_cases hlt : e < now
            · simp [he, hlt, noSecret]
            · cases hu : findUser st sess with
              | none => simp [he, hlt, hu, noSecret]
              | some u => simpa [he, hlt, hu, noSecret] using Doc.get_eraseKey u "password_hash"
  · simp only [login]
    cases hu : (getDocs st.flexuser [("email", .dir (.str email))] 1).head? with
    | none => simp [noSecretL]
    | some user =>
      by_cases hok : storedHashOk pw (user.get "password_hash") = true
      · simp only [hok, if_true]
        show Doc.get _ "password_hash" = none
        rfl
      · simp [hok, noSecretL]
  · simp only [register]
    by_cases hdup : getDocs st.flexuser [("email", .dir (.str email))] 1 ≠ []
    · simp [hdup, noSecretR]
    · simp only [hdup, if_false]
      show Doc.get _ "password_hash" = none
      rfl

/-! ## Claim C3: duplicate-email registration -/

/-- C3 (amended): `register` fails with `DuplicateEmail` if and only if
*any* stored user with the given email exists — active or not — and
otherwise creates a user with `high_score = 0` and `is_active = true` and
returns the token with a `password_hash`-free public view. -/
theorem register_duplicate_email (st : Store) (email dn pw tok nid sid : String) (now : Int) :
    (register st email dn pw tok nid sid now = .duplicateEmail ↔
      ∃ d ∈ st.flexuser, condMatch d "email" (.str email) = true) ∧
    ((¬ ∃ d ∈ st.flexuser, condMatch d "email" (.str email) = true) →
      ∃ view stOut, register st email dn pw tok nid sid now = .okR tok view stOut ∧
        view.get "password_hash" = none ∧
        ∃ newU, stOut.flexuser = st.flexuser ++ [newU] ∧
          newU.get "email" = some (.str email) ∧
          newU.get "high_score" = some (.int 0) ∧
          newU.get "is_active" = some (.bool true)) := by
  have hiff : getDocs st.flexuser [("email", .dir (.str email))] 1 ≠ [] ↔
      ∃ d ∈ st.flexuser, condMatch d "email" (.str email) = true := by
    unfold getDocs
    constructor
    · intro hne
      have hf : st.flexuser.filter (matchesFilter · [("email", .dir (.str email))]) ≠ [] := by
        intro h0
        rw [h0] at hne
        exact hne rfl
      rcases List.exists_mem_of_ne_nil _ hf with ⟨d, hd⟩
      exact ⟨d, List.mem_of_mem_filter hd, by simpa [matchesFilter] using List.of_mem_filter hd⟩
    · rintro ⟨d, hd, hm⟩ h0
      have hmem : d ∈ st.flexuser.filter (matchesFilter · [("email", .dir (.str email))]) :=
        List.mem_filter.mpr ⟨hd, by simpa [matchesFilter] using hm⟩
      rcases List.take_eq_nil_iff.mp h0 with h | h
      · simp at h
      · rw [h] at hmem
        exact absurd hmem (List.not_mem_nil d)
  constructor
  · rw [← hiff]
    simp only [register]
    by_cases hdup : getDocs st.flexuser [("email", .dir (.str email))] 1 ≠ []
    · simp [hdup]
    · simp [hdup]
  · intro hno
    have hnil : ¬ getDocs st.flexuser [("email", .dir (.str email))] 1 ≠ [] := by
      rw [hiff]; exact hno
    simp only [register, hnil, if_false]
    refine ⟨_, _, rfl, rfl, _, rfl, rfl, rfl, rfl⟩

/-- A stored user with email `a@b.c` that is *inactive*. -/
def uInactive : Doc :=
  [("_id", .oid "x"), ("email", .str "a@b.c"), ("display_name", .str "Old"),
   ("password_hash", .str "h"), ("high_score", .int 7), ("is_active", .bool false)]

/-- Store whose only user is the inactive `uInactive`. -/
def stInactive : Store := ⟨[uInactive], [], []⟩

/-- Counterexample to C3 as stated: no *active* user with `a@b.c` exists
(the only holder of that email has `is_active = false`), yet `register`
fails with `DuplicateEmail` — the duplicate check does not filter on
`is_active`. -/
theorem register_duplicate_email_counterexample :
    register stInactive "a@b.c" "Bob" "pw" "tok" "n1" "s1" 0 = .duplicateEmail ∧
    (∀ d ∈ stInactive.flexuser, d.get "is_active" = some (.bool false)) := by
  decide

/-- Witness for the amended C3 at a concrete input: registering against
the empty store succeeds and creates the documented user. -/
theorem register_duplicate_email_witness :
    ∃ view stOut, register ⟨[], [], []⟩ "a@b.c" "Bob" "pw" "tok" "n1" "s1" 0 =
        .okR "tok" view stOut ∧
      view.get "password_hash" = none ∧
      ∃ newU, stOut.flexuser = [] ++ [newU] ∧
        newU.get "email" = some (.str "a@b.c") ∧
        newU.get "high_score" = some (.int 0) ∧
        newU.get "is_active" = some (.bool true) :=
  (register_duplicate_email ⟨[], [], []⟩ "a@b.c" "Bob" "pw" "tok" "n1" "s1" 0).2
    (by simp)

/-! ## Claim C8: leaderboard sorting -/

/-- Index-annotate a list (insertion order made explicit) starting at `n`. -/
def enumF {α : Type} : Nat → List α → List (Nat × α)
  | _, [] => []
  | n, a :: l => (n, a) :: enumF (n + 1) l

/-- The strict stable-descending order on index-annotated elements:
strictly larger key first, ties by insertion index. -/
def stRel {α : Type} (key : α → Int) (a b : Nat × α) : Prop :=
  key b.2 < key a.2 ∨ (key a.2 = key b.2 ∧ a.1 < b.1)

/-- Relation `stRel` implies the plain descending-key order. -/
theorem stRel_le {α : Type} (key : α → Int) (a b : Nat × α)
    (h : stRel key a b) : key b.2 ≤ key a.2 := by
  rcases h with h | ⟨h, _⟩ <;> omega

/-- Membership in a stable insertion. -/
theorem mem_insDesc {α : Type} (key : α → Int) (x y : α) (l : List α) :
    y ∈ insDesc key x l ↔ y = x ∨ y ∈ l := by
  induction l with
  | nil => simp [insDesc]
  | cons b t ih =>
    by_cases h : key b ≤ key x
    · simp [insDesc, h]
    · simp only [insDesc, if_neg h, List.mem_cons, ih]
      tauto

/-- A stable insertion is a permutation of consing. -/
theorem insDesc_perm {α : Type} (key : α → Int) (x : α) (l : List α) :
    (insDesc key x l).Perm (x :: l) := by
  induction l with
  | nil => simp [insDesc]
  | cons b t ih =>
    by_cases h : key b ≤ key x
    · simp [insDesc, h]
    · simp only [insDesc, if_neg h]
      exact (ih.cons b).trans (List.Perm.swap x b t)

/-- The stable sort is a permutation of its input. -/
theorem sortDesc_perm {α : Type} (key : α → Int) (l : List α) :
    (sortDesc key l).Perm l := by
  induction l with
  | nil => simp [sortDesc]
  | cons a t ih => exact (insDesc_perm key a (sortDesc key t)).trans (ih.cons a)

/-- Stable insertion preserves descending-key sortedness. -/
theorem insDesc_pairwise_ge {α : Type} (key : α → Int) (x : α) (l : List α)
    (hl : l.Pairwise fun a b => key b ≤ key a) :
    (insDesc key x l).Pairwise fun a b => key b ≤ key a := by
  induction l with
  | nil => simp [insDesc]
  | cons b t ih =>
    rcases List.pairwise_cons.mp hl with ⟨hb, ht⟩
    by_cases h : key b ≤ key x
    · rw [show insDesc key x (b :: t) = x :: b :: t by simp [insDesc, h]]
      refine List.pairwise_cons.mpr ⟨?_, hl⟩
      intro c hc
      rcases List.mem_cons.mp hc with rfl | hc
      · exact h
      · exact le_trans (hb c hc) h
    · rw [show insDesc key x (b :: t) = b :: insDesc key x t by simp [insDesc, h]]
      refine List.pairwise_cons.mpr ⟨?_, ih ht⟩
      intro c hc
      rcases (mem_insDesc key x c t).mp hc with rfl | hc
      · omega
      · exact hb c hc

/-- The stable sort is sorted by descending key. -/
theorem sortDesc_pairwise_ge {α : Type} (key : α → Int) (l : List α) :
    (sortDesc key l).Pairwise fun a b => key b ≤ key a := by
  induction l with
  | nil => simp [sortDesc]
  | cons a t ih => exact insDesc_pairwise_ge key a (sortDesc key t) ih

/-- Inserting an element whose index is below every index present
preserves the strict stable order. -/
theorem insDesc_pairwise_stRel {α : Type} (key : α → Int) (x : Nat × α)
    (l : List (Nat × α)) (hl : l.Pairwise (stRel key))
    (hidx : ∀ b ∈ l, x.1 < b.1) :
    (insDesc (fun p => key p.2) x l).Pairwise (stRel key) := by
  induction l with
  | nil => simp [insDesc]
  | cons b t ih =>
    rcases List.pairwise_cons.mp hl with ⟨hb, ht⟩
    by_cases h : key b.2 ≤ key x.2
    · rw [show insDesc (fun p => key p.2) x (b :: t) = x :: b :: t by simp [insDesc, h]]
      refine List.pairwise_cons.mpr ⟨?_, hl⟩
      intro c hc
      have hcle : key c.2 ≤ key x.2 := by
        rcases List.mem_cons.mp hc with rfl | hc
        · exact h
        · exact le_trans (stRel_le key b c (hb c hc)) h
      by_cases hlt : key c.2 < key x.2
      · exact Or.inl hlt
      · exact Or.inr ⟨by omega, hidx c hc⟩
    · rw [show insDesc (fun p => key p.2) x (b :: t) =
          b :: insDesc (fun p => key p.2) x t by simp [insDesc, h]]
      refine List.pairwise_cons.mpr ⟨?_, ih ht fun b1 hb1 => hidx b1 (List.mem_cons_of_mem _ hb1)⟩
      intro c hc
      rcases (mem_insDesc (fun p => key p.2) x c t).mp hc with rfl | hc
      · exact Or.inl (by omega)
      · exact hb c hc

/-- Indices listed by `enumF n` are at least `n`. -/
theorem enumF_fst_ge {α : Type} (n : Nat) (l : List α) :
    ∀ p ∈ enumF n l, n ≤ p.1 := by
  induction l generalizing n with
  | nil => simp [enumF]
  | cons a t ih =>
    intro p hp
    rcases List.mem_cons.mp hp with rfl | hp
    · exact Nat.le_refl n
    · exact Nat.le_of_succ_le (ih (n + 1) p hp)

/-- Dropping the indices of `enumF` recovers the original list. -/
theorem enumF_map_snd {α : Type} (n : Nat) (l : List α) :
    (enumF n l).map Prod.snd = l := by
  induction l generalizing n with
  | nil => rfl
  | cons a t ih => simp [enumF, ih]

/-- The stable sort of the index-annotated list satisfies the strict
stable order pairwise: strictly descending keys, ties in insertion order. -/
theorem sortDesc_enumF_pairwise {α : Type} (key : α → Int) (l : List α) (n : Nat) :
    (sortDesc (fun p => key p.2) (enumF n l)).Pairwise (stRel key) := by
  induction l generalizing n with
  | nil => simp [enumF, sortDesc]
  | cons a t ih =>
    show (insDesc (fun p => key p.2) (n, a) (sortDesc _ (enumF (n + 1) t))).Pairwise _
    refine insDesc_pairwise_stRel key (n, a) _ (ih (n + 1)) ?_
    intro b hb
    have : b ∈ enumF (n + 1) t := (sortDesc_perm _ _).mem_iff.mp hb
    exact Nat.lt_of_succ_le (enumF_fst_ge (n + 1) t b this)

/-- Stable insertion commutes with dropping the indices. -/
theorem insDesc_map_snd {α : Type} (key : α → Int) (x : Nat × α) (l : List (Nat × α)) :
    (insDesc (fun p => key p.2) x l).map Prod.snd = insDesc key x.2 (l.map Prod.snd) := by
  induction l with
  | nil => rfl
  | cons b t ih =>
    by_cases h : key b.2 ≤ key x.2
    · simp [insDesc, h]
    · simp [insDesc, h, ih]

/-- The sort the code runs equals the index-annotated stable sort with
the indices dropped: the characterization of Python's stable
`sorted(..., reverse=True)`. -/
theorem sortDesc_eq_enum_sort {α : Type} (key : α → Int) (l : List α) (n : Nat) :
    sortDesc key l = (sortDesc (fun p => key p.2) (enumF n l)).map Prod.snd := by
  induction l generalizing n with
  | nil => rfl
  | cons a t ih =>
    show insDesc key a (sortDesc key t) = (insDesc _ (n, a) (sortDesc _ (enumF (n + 1) t))).map _
    rw [insDesc_map_snd, ih (n + 1)]

/-- The score documents used by the spec's leaderboard example:
`(A,50), (B,80), (C,80), (D,10)` submitted in that order. -/
def scoresExample : List Doc :=
  [[("display_name", .str "A"), ("value", .int 50)],
   [("display_name", .str "B"), ("value", .int 80)],
   [("display_name", .str "C"), ("value", .int 80)],
   [("display_name", .str "D"), ("value", .int 10)]]

/-- Store holding only the example scores. -/
def stScores : Store := ⟨[], [], scoresExample⟩

/-- C8 (amended): for every store of well-typed score documents and every
limit `N ≥ 0`, `/scores/top` returns at most `N` entries, sorted by value
descending; the sort is the stable one — on the index-annotated documents
it is pairwise strictly ordered by (key desc, insertion index asc) and a
permutation of the input — and the spec's example yields `B, C, A` for
limit 3.  (A negative limit instead slices from the end, see the
counterexample.) -/
theorem top_scores_sorted (st : Store) (limit : Int) (h0 : 0 ≤ limit)
    (hw : ∀ d ∈ st.score, wellTypedScore d = true) :
    ((topScores st limit).length : Int) ≤ limit ∧
    (topScores st limit).Pairwise (fun a b => b.2 ≤ a.2) ∧
    sortDesc scoreKey st.score =
      (sortDesc (fun p => scoreKey p.2) (enumF 0 st.score)).map Prod.snd ∧
    (sortDesc (fun p => scoreKey p.2) (enumF 0 st.score)).Pairwise (stRel scoreKey) ∧
    (sortDesc (fun p => scoreKey p.2) (enumF 0 st.score)).Perm (enumF 0 st.score) ∧
    topScores stScores 3 = [(.str "B", 80), (.str "C", 80), (.str "A", 50)] := by
  have hall : getDocsAll st.score [] = st.score := by
    simp [getDocsAll, matchesFilter]
  refine ⟨?_, ?_, sortDesc_eq_enum_sort scoreKey st.score 0,
    sortDesc_enumF_pairwise scoreKey st.score 0, sortDesc_perm _ _, by decide⟩
  · have hlen : (topScores st limit).length ≤ limit.toNat := by
      simp only [topScores, hall, List.length_map, pySlice, if_pos h0]
      exact le_trans (List.length_take_le _ _) (Nat.le_refl _)
    calc ((topScores st limit).length : Int) ≤ (limit.toNat : Int) := by exact_mod_cast hlen
      _ = limit := Int.toNat_of_nonneg h0
  · have hsorted := sortDesc_pairwise_ge scoreKey (getDocsAll st.score [])
    have htake : (pySlice (sortDesc scoreKey (getDocsAll st.score [])) limit).Pairwise
        fun a b => scoreKey b ≤ scoreKey a := by
      unfold pySlice
      split
      · exact hsorted.take
      · exact hsorted.take
    simpa [topScores, List.pairwise_map, scoreEntry] using htake

/-- Counterexample to C8 as stated ("for every limit N"): with the four
example scores stored, `/scores/top?limit=-1` returns `len - 1 = 3`
entries (Python slicing `[:-1]` drops from the end), which is not at most
`-1`. -/
theorem top_scores_sorted_counterexample :
    ¬ (((topScores stScores (-1)).length : Int) ≤ -1) := by
  decide

/-- Witness for the amended C8 at a concrete input: the example store with
limit 3 returns at most 3 entries. -/
theorem top_scores_sorted_witness :
    ((topScores stScores 3).length : Int) ≤ 3 :=
  (top_scores_sorted stScores 3 (by decide) (by decide)).1

/-! ## Claim C6: hash round-trip and (non-)injectivity -/

/-- Rendering `hexDigits` reads only the low `k` hex digits of its input. -/
theorem hexDigits_mod (k : Nat) : ∀ n, hexDigits n k = hexDigits (n % 16 ^ k) k := by
  induction k with
  | zero => intro n; rfl
  | succ k ih =>
    intro n
    show hexDigits (n / 16) k ++ [hexChar (n % 16)] =
      hexDigits (n % 16 ^ (k + 1) / 16) k ++ [hexChar (n % 16 ^ (k + 1) % 16)]
    have h1 : n % 16 ^ (k + 1) % 16 = n % 16 :=
      Nat.mod_mod_of_dvd n (dvd_pow_self 16 (Nat.succ_ne_zero k))
    have h2 : n % 16 ^ (k + 1) / 16 = n / 16 % 16 ^ k := by
      rw [pow_succ, mul_comm]
      exact Nat.mod_mul_right_div_self n 16 (16 ^ k)
    rw [h1, h2, ← ih (n / 16)]

/-- The peppered SHA-256 digest of a plaintext, as an element of the
*finite* type `Fin (16 ^ 64)`: the whole information content of a
`hash_password` output. -/
def digestFin (p : String) : Fin (16 ^ 64) :=
  ⟨sha256nat (utf8Bytes (PASSWORD_SALT ++ p)) % 16 ^ 64, Nat.mod_lt _ (by norm_num)⟩

/-- Digesting: `hash_password` is the 64-hex-digit rendering of `digestFin`. -/
theorem hash_password_eq_digest (p : String) :
    hash_password p = ⟨hexDigits (digestFin p).val 64⟩ := by
  unfold hash_password sha256hex digestFin
  exact congrArg (fun l => (⟨l⟩ : String)) (hexDigits_mod 64 _)

/-- Counterexample to C6 as stated: "verify(p, hash(q)) is false whenever
p ≠ q" is refuted — `hash_password` maps the infinitely many plaintexts
into the finitely many 64-hex-digit digests, so some two distinct
plaintexts collide and `verify` accepts the wrong one. -/
theorem hash_roundtrip_counterexample :
    ¬ (∀ p q : String, p ≠ q → verify_password p (hash_password q) = false) := by
  intro hall
  obtain ⟨p, q, hne, heq⟩ := Finite.exists_ne_map_eq_of_infinite digestFin
  have hh : hash_password p = hash_password q := by
    rw [hash_password_eq_digest, hash_password_eq_digest, heq]
  have htrue : verify_password p (hash_password q) = true := by
    unfold verify_password
    rw [← hh]
    simp
  rw [hall p q hne] at htrue
  exact Bool.false_ne_true htrue

/-- C6 (amended): `verify(p, hash(p))` is true for every plaintext `p`,
and `verify(p, hash(q))` is true exactly when the digests coincide —
inequality of the plaintexts alone cannot guarantee rejection, because
SHA-256's finite range necessarily admits colliding plaintext pairs. -/
theorem hash_roundtrip (p q : String) :
    verify_password p (hash_password p) = true ∧
    (verify_password p (hash_password q) = true ↔ hash_password p = hash_password q) ∧
    ∃ a b : String, a ≠ b ∧ hash_password a = hash_password b := by
  refine ⟨by simp [verify_password], by simp [verify_password], ?_⟩
  obtain ⟨a, b, hne, heq⟩ := Finite.exists_ne_map_eq_of_infinite digestFin
  exact ⟨a, b, hne, by rw [hash_password_eq_digest, hash_password_eq_digest, heq]⟩

end Flex








